import Mathlib

/-!
# Bulletin-board server: shallow embedding and verification

A shallow embedding of the bulletin-board service (`protocol.py`,
`server.py`): the credential store, the post store, the per-connection
session state, the command handlers and dispatcher, and the reactor's
buffer handling.  Strings manipulated character-wise are modelled as
`List Char` where convenient; wire responses are Lean `String`s built
exactly as the source builds them.
-/

namespace BBS

/-! ## Python string primitives used by the source -/

/-- The whitespace set of Python's `str.strip()` / `str.split()`
(ASCII part; the source never feeds non-ASCII whitespace to these). -/
def isPySpace (c : Char) : Bool :=
  c = ' ' || c = '\t' || c = '\n' || c = '\r' || c = '\x0b' || c = '\x0c'

/-- `s.strip()` on characters: drop leading and trailing whitespace. -/
def pyStripL (l : List Char) : List Char :=
  ((l.dropWhile isPySpace).reverse.dropWhile isPySpace).reverse

/-- Python `s.strip()`. -/
def pyStrip (s : String) : String :=
  ⟨pyStripL s.toList⟩

/-- Helper for `pySplit`: single pass with the current word accumulated
in reverse. -/
def pySplitGo (cur : List Char) : List Char → List (List Char)
  | [] => if cur = [] then [] else [cur.reverse]
  | c :: cs =>
    if isPySpace c then
      if cur = [] then pySplitGo [] cs else cur.reverse :: pySplitGo [] cs
    else pySplitGo (c :: cur) cs

/-- Splits a character list on runs of whitespace, discarding empties. -/
def pySplitL (l : List Char) : List (List Char) :=
  pySplitGo [] l

/-- Python `s.split()` (no separator): split on whitespace runs,
discarding empty fields. -/
def pySplit (s : String) : List String :=
  (pySplitL s.toList).map fun l => ⟨l⟩

/-- Helper for `pySplitSpace1`: break a character list at the first `' '`. -/
def breakAtSpace : List Char → List Char × Option (List Char)
  | [] => ([], none)
  | c :: cs =>
    if c = ' ' then ([], some cs)
    else
      let p := breakAtSpace cs
      (c :: p.1, p.2)

/-- Python `line.split(" ", 1)`: the part before the first space, and
the remainder after it (if a space occurs at all). -/
def pySplitSpace1 (s : String) : String × Option String :=
  let p := breakAtSpace s.toList
  (⟨p.1⟩, p.2.map fun l => ⟨l⟩)

/-- Python `s.upper()` (ASCII; command-name comparison only ever
involves ASCII). -/
def pyUpper (s : String) : String :=
  ⟨s.toList.map Char.toUpper⟩

/-- Digits-only parse accumulating into a natural number. -/
def parseDigits : List Char → Option Nat
  | [] => none
  | l => l.foldlM (fun acc c =>
      if c.isDigit then some (acc * 10 + (c.toNat - '0'.toNat)) else none) 0

/-- Python `int(s)` on the token shapes the protocol can produce
(an optional sign followed by decimal digits); `none` models the
`ValueError` branch. -/
def pyParseInt (s : String) : Option Int :=
  match s.toList with
  | '-' :: ds => (parseDigits ds).map fun n => -(n : Int)
  | '+' :: ds => (parseDigits ds).map fun n => (n : Int)
  | ds => (parseDigits ds).map fun n => (n : Int)

/-- Python `raw_line.rstrip("\r")`: remove every trailing carriage
return (and nothing else). -/
def rstripCR (l : List Char) : List Char :=
  (l.reverse.dropWhile (· = '\r')).reverse

/-- `buffer.split("\n", 1)` when a newline is present: the prefix
before the first `'\n'` and the remainder after it. -/
def splitAtNewline : List Char → Option (List Char × List Char)
  | [] => none
  | c :: cs =>
    if c = '\n' then some ([], cs)
    else (splitAtNewline cs).map fun p => (c :: p.1, p.2)

/-- `"\n".join` on character lists: the separator goes strictly between
the pieces. -/
def joinLinesL : List (List Char) → List Char
  | [] => []
  | [l] => l
  | l :: ls => l ++ '\n' :: joinLinesL ls

/-- `"\n".join(lines)` at the wire level. -/
def joinLines (ls : List String) : String :=
  ⟨joinLinesL (ls.map String.toList)⟩

/-- Split a character sequence at every `'\n'` (inverse of joining). -/
def splitLinesL : List Char → List (List Char)
  | [] => [[]]
  | c :: cs =>
    if c = '\n' then [] :: splitLinesL cs
    else
      match splitLinesL cs with
      | [] => [[c]]
      | l :: ls => (c :: l) :: ls

/-- The delimiter-terminated lines of a wire frame: split at newlines
and drop the final (empty, for a well-terminated frame) fragment. -/
def wireLines (s : String) : List (List Char) :=
  (splitLinesL s.toList).dropLast

/-- `len(s.encode("utf-8"))` for a decoded text buffer. -/
def encodedByteLength (l : List Char) : Nat :=
  (l.map Char.utf8Size).sum

/-! ## Association-list operations mirroring Python `dict` -/

/-- `d.get(k)`: first binding of `k`, if any. -/
def alookup {α β : Type} [DecidableEq α] : List (α × β) → α → Option β
  | [], _ => none
  | (k, v) :: rest, k' => if k' = k then some v else alookup rest k'

/-- `d[k] = v`: replace an existing binding in place, else append
(Python dicts preserve insertion order). -/
def aupsert {α β : Type} [DecidableEq α] : List (α × β) → α → β → List (α × β)
  | [], k, v => [(k, v)]
  | (k', v') :: rest, k, v =>
    if k = k' then (k, v) :: rest else (k', v') :: aupsert rest k v

/-- `del d[k]`. -/
def aerase {α β : Type} [DecidableEq α] (l : List (α × β)) (k : α) : List (α × β) :=
  l.filter fun e => decide (e.1 ≠ k)

/-! ## Credential store (`protocol.py` lines 7–45) -/

/-- A value of `USERS`: seeded records carry a role, registered ones
store only the hash (`register` omits the `role` key). -/
structure UserRec where
  pwHash : String
  role : Option String
deriving Repr, DecidableEq

/-- Modelled from the spec: the argon2 `PasswordHasher` (`ph.hash`) is an
external collaborator, specified only as an opaque
`hash(password) -> credential` capability; modelled as an injective
tagging of the password. -/
def phHash (password : String) : String :=
  "$argon2id$" ++ password

/-- Modelled from the spec: `ph.verify(credential, password)` succeeds
exactly when the credential was produced by hashing that password. -/
def phVerify (storedHash password : String) : Bool :=
  storedHash = phHash password

/-- `USERS`, the seeded credential store (`_hash_seeded_users`). -/
def USERS : List (String × UserRec) :=
  [("oliver", ⟨phHash "pw1", some "user"⟩),
   ("sam", ⟨phHash "pw2", some "user"⟩),
   ("admin", ⟨phHash "adminpw", some "admin"⟩)]

/-- `register(username, password)`: returns the updated store and the
`(ok, message)` pair.  Note the stored record has no role. -/
def register (users : List (String × UserRec)) (username password : String) :
    List (String × UserRec) × Bool × String :=
  if (alookup users username).isSome then (users, false, "ERR username_taken")
  else if password.length < 10 then (users, false, "ERR password_too_short")
  else (aupsert users username ⟨phHash password, none⟩, true, "OK registered")

/-- `verify_password(record, password)`: the falsy check on the stored
hash, then argon2 verification (`VerifyMismatchError` → `False`). -/
def verify_password (record : UserRec) (password : String) : Bool :=
  if record.pwHash = "" then false
  else phVerify record.pwHash password

/-! ## Post store and session state -/

/-- `Post` (`protocol.py` lines 47–52). -/
structure Post where
  id : Int
  author : String
  timestamp : String
  message : String
deriving Repr, DecidableEq

/-- The session fields of `ClientState` (`server.py` lines 12–19) seen
by the protocol handlers; `username`/`role` start as `None`. -/
structure Client where
  username : Option String
  role : Option String
  authenticated : Bool
deriving Repr, DecidableEq

/-- A fresh, unauthenticated session. -/
def freshClient : Client := ⟨none, none, false⟩

/-- The module-level mutable state of `protocol.py`: `USERS`, `posts`,
`next_post_id`. -/
structure ServerState where
  users : List (String × UserRec)
  posts : List (Int × Post)
  nextPostId : Int
deriving Repr, DecidableEq

/-- The state at process start: seeded users, no posts, counter 1. -/
def initState : ServerState := ⟨USERS, [], 1⟩

/-- Python string interpolation of a possibly-`None` value. -/
def optStr : Option String → String
  | none => "None"
  | some s => s

/-- `require_auth(client)`. -/
def require_auth (client : Client) : Option String :=
  if !client.authenticated then some "ERR Not logged in\n" else none

/-- A handler's effect: the (possibly updated) session and store, and
the response text. -/
structure HandlerResult where
  client : Client
  state : ServerState
  response : String
deriving Repr, DecidableEq

/-! ## Command handlers (`protocol.py` lines 62–288) -/

/-- The 16-line body of the no-argument `HELP` response. -/
def helpGeneralBody : List String :=
  ["LOGIN <username> <password>",
   "POST <message...>",
   "LIST",
   "GET <id>",
   "DEL <id>",
   "WHOAMI",
   "HELP [command]",
   "QUIT",
   "EXAMPLES:",
   "  LOGIN oliver pw1",
   "  POST hello world",
   "  LIST",
   "  GET 1",
   "  DEL 1",
   "  WHOAMI",
   "  QUIT"]

/-- The `details` table of `handle_help`. -/
def helpTopicBody (cmd : String) : Option (List String) :=
  if cmd = "LOGIN" then some
    ["TOPIC: LOGIN",
     "Syntax: LOGIN <username> <password>",
     "Notes: Must be called before POST/LIST/GET/DEL/WHOAMI."]
  else if cmd = "POST" then some
    ["TOPIC: POST",
     "Syntax: POST <message...>",
     "Notes: Author is your authenticated username; message is the rest of the line."]
  else if cmd = "LIST" then some
    ["TOPIC: LIST",
     "Syntax: LIST",
     "Response: OK LIST <count> followed by <count> post lines."]
  else if cmd = "GET" then some
    ["TOPIC: GET",
     "Syntax: GET <id>"]
  else if cmd = "DEL" then some
    ["TOPIC: DEL",
     "Syntax: DEL <id>",
     "Notes: Allowed if you are admin or you are the post author."]
  else if cmd = "WHOAMI" then some
    ["TOPIC: WHOAMI",
     "Syntax: WHOAMI",
     "Response: OK WHOAMI <username> <role>"]
  else if cmd = "HELP" then some
    ["TOPIC: HELP",
     "Syntax: HELP",
     "        HELP <command>"]
  else if cmd = "QUIT" then some
    ["TOPIC: QUIT",
     "Syntax: QUIT",
     "Notes: Server will close the connection after responding."]
  else none

/-- `"OK <TAG> <n>\n" + "\n".join(body) + "\n"`. -/
def countFramed (tag : String) (body : List String) : String :=
  "OK " ++ tag ++ " " ++ toString body.length ++ "\n" ++ joinLines body ++ "\n"

/-- `handle_help(client, rest)`. -/
def handle_help (client : Client) (st : ServerState) (rest : String) :
    HandlerResult :=
  let arg := pyStrip rest
  if arg = "" then ⟨client, st, countFramed "HELP" helpGeneralBody⟩
  else
    let parts := pySplit arg
    if parts.length ≠ 1 then ⟨client, st, "ERR BAD_SYNTAX\n"⟩
    else
      match helpTopicBody (pyUpper (parts.headD "")) with
      | none => ⟨client, st, "ERR UNKNOWN_COMMAND\n"⟩
      | some body => ⟨client, st, countFramed "HELP" body⟩

/-- `handle_whoami(client, rest)`. -/
def handle_whoami (client : Client) (st : ServerState) (rest : String) :
    HandlerResult :=
  match require_auth client with
  | some err => ⟨client, st, err⟩
  | none =>
    if pyStrip rest ≠ "" then ⟨client, st, "ERR BAD_SYNTAX\n"⟩
    else ⟨client, st,
      "OK WHOAMI " ++ optStr client.username ++ " " ++ optStr client.role ++ "\n"⟩

/-- `handle_login(client, rest)`: already-authenticated check first,
then argument count, then credential verification. -/
def handle_login (client : Client) (st : ServerState) (rest : String) :
    HandlerResult :=
  if client.authenticated then ⟨client, st, "ERR Already logged in\n"⟩
  else
    let parts := pySplit rest
    if parts.length ≠ 2 then ⟨client, st, "ERR BAD_SYNTAX\n"⟩
    else
      let username := parts.headD ""
      let password := (parts.drop 1).headD ""
      match alookup st.users username with
      | none => ⟨client, st, "ERR Invalid credentials\n"⟩
      | some record =>
        if !verify_password record password then
          ⟨client, st, "ERR Invalid credentials\n"⟩
        else
          let role := record.role.getD "user"
          ⟨⟨some username, some role, true⟩, st,
            "OK Logged in as " ++ username ++ " (" ++ role ++ ")\n"⟩

/-- `handle_post(client, rest)`; `now` is the externally supplied
`time.strftime(...)` value. -/
def handle_post (client : Client) (st : ServerState) (now rest : String) :
    HandlerResult :=
  match require_auth client with
  | some err => ⟨client, st, err⟩
  | none =>
    if pyStrip rest = "" then ⟨client, st, "ERR Empty message\n"⟩
    else
      let postId := st.nextPostId
      let p : Post := ⟨postId, optStr client.username, now, rest⟩
      ⟨client,
        { st with posts := aupsert st.posts postId p, nextPostId := postId + 1 },
        "OK Post " ++ toString postId ++ " created\n"⟩

/-- `f"{p.id} {p.author} {p.timestamp} {p.message}"`. -/
def postLine (p : Post) : String :=
  toString p.id ++ " " ++ p.author ++ " " ++ p.timestamp ++ " " ++ p.message

/-- `sorted(posts.keys())`. -/
def sortedKeys (posts : List (Int × Post)) : List Int :=
  (posts.map Prod.fst).insertionSort (· ≤ ·)

/-- The per-post lines appended by `handle_list`'s loop. -/
def listBody (posts : List (Int × Post)) : List String :=
  (sortedKeys posts).filterMap fun k => (alookup posts k).map postLine

/-- `handle_list(client, rest)`. -/
def handle_list (client : Client) (st : ServerState) (rest : String) :
    HandlerResult :=
  match require_auth client with
  | some err => ⟨client, st, err⟩
  | none =>
    if pyStrip rest ≠ "" then ⟨client, st, "ERR BAD_SYNTAX\n"⟩
    else
      let lines := ("OK LIST " ++ toString st.posts.length) :: listBody st.posts
      ⟨client, st, joinLines lines ++ "\n"⟩

/-- `handle_get(client, rest)`. -/
def handle_get (client : Client) (st : ServerState) (rest : String) :
    HandlerResult :=
  match require_auth client with
  | some err => ⟨client, st, err⟩
  | none =>
    let parts := pySplit rest
    if parts.length ≠ 1 then ⟨client, st, "ERR BAD_SYNTAX\n"⟩
    else
      match pyParseInt (parts.headD "") with
      | none => ⟨client, st, "ERR BAD_SYNTAX\n"⟩
      | some postId =>
        match alookup st.posts postId with
        | none => ⟨client, st, "ERR Not found\n"⟩
        | some p => ⟨client, st, "OK " ++ postLine p ++ "\n"⟩

/-- `handle_del(client, rest)`: existence check, then the
admin-or-author authorization check. -/
def handle_del (client : Client) (st : ServerState) (rest : String) :
    HandlerResult :=
  match require_auth client with
  | some err => ⟨client, st, err⟩
  | none =>
    let parts := pySplit rest
    if parts.length ≠ 1 then ⟨client, st, "ERR BAD_SYNTAX\n"⟩
    else
      match pyParseInt (parts.headD "") with
      | none => ⟨client, st, "ERR BAD_SYNTAX\n"⟩
      | some postId =>
        match alookup st.posts postId with
        | none => ⟨client, st, "ERR Not found\n"⟩
        | some p =>
          if client.role ≠ some "admin" ∧ some p.author ≠ client.username then
            ⟨client, st, "ERR Not authorized\n"⟩
          else
            ⟨client, { st with posts := aerase st.posts postId },
              "OK Deleted " ++ toString postId ++ "\n"⟩

/-- `handle_quit(client, rest)`. -/
def handle_quit (client : Client) (st : ServerState) (rest : String) :
    HandlerResult :=
  if pyStrip rest ≠ "" then ⟨client, st, "ERR BAD_SYNTAX\n"⟩
  else ⟨client, st, "OK Bye\n"⟩

/-! ## Dispatcher (`COMMANDS` / `process_line`) -/

/-- The keys of the `COMMANDS` table. -/
def commandNames : List String :=
  ["HELP", "LOGIN", "POST", "LIST", "GET", "DEL", "WHOAMI", "QUIT"]

/-- The second component of each `COMMANDS` entry: only `QUIT` requests
a close after its response is sent. -/
def shouldClose (cmd : String) : Bool :=
  cmd = "QUIT"

/-- A dispatch step's outcome: updated session and store, the response
(`none` for an ignored empty line), and the close flag. -/
structure StepResult where
  client : Client
  state : ServerState
  response : Option String
  close : Bool
deriving Repr, DecidableEq

/-- The handler component of the `COMMANDS` table, keyed by the
upper-cased command token (callers only pass members of
`commandNames`). -/
def applyCommand (cmd : String) (client : Client) (st : ServerState)
    (now rest : String) : HandlerResult :=
  if cmd = "HELP" then handle_help client st rest
  else if cmd = "LOGIN" then handle_login client st rest
  else if cmd = "POST" then handle_post client st now rest
  else if cmd = "LIST" then handle_list client st rest
  else if cmd = "GET" then handle_get client st rest
  else if cmd = "DEL" then handle_del client st rest
  else if cmd = "WHOAMI" then handle_whoami client st rest
  else handle_quit client st rest

/-- `process_line(client, line)`: empty lines dispatch nothing; the
command token is the part before the first space, upper-cased; the
remainder is passed verbatim. -/
def process_line (client : Client) (st : ServerState) (now line : String) :
    StepResult :=
  if line = "" then ⟨client, st, none, false⟩
  else
    let p := pySplitSpace1 line
    let cmd := pyUpper p.1
    let rest := p.2.getD ""
    if cmd ∈ commandNames then
      let r := applyCommand cmd client st now rest
      ⟨r.client, r.state, some r.response, shouldClose cmd⟩
    else
      ⟨client, st, some "ERR UNKNOWN_COMMAND\n", false⟩

/-! ## Connection reactor (`server.py`) -/

/-- `MAX_BUFFER_BYTES = 64 * 1024`. -/
def MAX_BUFFER_BYTES : Nat := 64 * 1024

/-- A live connection: its pending input buffer and session. -/
structure ConnState where
  buffer : List Char
  client : Client
deriving Repr, DecidableEq

/-- The reactor's state: the `clients` map (keyed by an abstract socket
identifier) and the shared protocol store. -/
structure SysState where
  conns : List (Nat × ConnState)
  store : ServerState
deriving Repr, DecidableEq

/-- Result of draining one connection's buffer. -/
structure DrainResult where
  client : Client
  store : ServerState
  buffer : List Char
  sent : List String
  closed : Bool
deriving Repr, DecidableEq

/-- The `while "\n" in client.buffer` loop of `handle_client_socket`
(lines 85–108): extract a line, strip trailing CRs, skip empty lines,
dispatch, send the response, stop on a close request.  `fuel` bounds
the iteration count; any `fuel > buffer length` behaves identically. -/
def drainLines (now : String) :
    Nat → Client → ServerState → List Char → List String → DrainResult
  | 0, c, st, buf, acc => ⟨c, st, buf, acc, false⟩
  | fuel + 1, c, st, buf, acc =>
    match splitAtNewline buf with
    | none => ⟨c, st, buf, acc, false⟩
    | some (raw, restBuf) =>
      let line := rstripCR raw
      if line = [] then drainLines now fuel c st restBuf acc
      else
        let r := process_line c st now ⟨line⟩
        let acc' := match r.response with
          | none => acc
          | some resp => acc ++ [resp]
        if r.close then ⟨r.client, r.state, restBuf, acc', true⟩
        else drainLines now fuel r.client r.state restBuf acc'

/-- The decoded-text path of `handle_client_socket` (lines 73–108):
append the received text, enforce the buffer cap (best-effort error
line, then close), otherwise drain complete lines.  Returns the new
system state and the lines sent to this connection's socket. -/
def receiveData (sys : SysState) (cid : Nat) (text : List Char)
    (now : String) : SysState × List String :=
  match alookup sys.conns cid with
  | none => (sys, [])
  | some conn =>
    let buf := conn.buffer ++ text
    if encodedByteLength buf > MAX_BUFFER_BYTES then
      (⟨aerase sys.conns cid, sys.store⟩, ["ERR Line too long\n"])
    else
      let d := drainLines now (buf.length + 1) conn.client sys.store buf []
      if d.closed then (⟨aerase sys.conns cid, d.store⟩, d.sent)
      else (⟨aupsert sys.conns cid ⟨d.buffer, d.client⟩, d.store⟩, d.sent)

/-! ## Protocol-level traces (for the id-allocation invariant) -/

/-- One observable step of the serialized reactor: accepting a fresh
connection, or one complete line arriving on an existing one. -/
inductive TraceEvent where
  | accept (sid : Nat)
  | input (sid : Nat) (now line : String)
deriving Repr, DecidableEq

/-- Sessions keyed by connection identity, plus the shared store. -/
structure ProtoSys where
  sessions : List (Nat × Client)
  store : ServerState
deriving Repr, DecidableEq

/-- The system at process start: no connections, seeded store. -/
def initProtoSys : ProtoSys := ⟨[], initState⟩

/-- Apply one event: accepts install a fresh session; an input line on
a live session is dispatched, the close flag tearing the session down. -/
def applyEvent (sys : ProtoSys) : TraceEvent → ProtoSys
  | .accept sid => ⟨aupsert sys.sessions sid freshClient, sys.store⟩
  | .input sid now line =>
    match alookup sys.sessions sid with
    | none => sys
    | some c =>
      let r := process_line c sys.store now line
      if r.close then ⟨aerase sys.sessions sid, r.state⟩
      else ⟨aupsert sys.sessions sid r.client, r.state⟩

/-- Run a sequence of events. -/
def runTrace (sys : ProtoSys) : List TraceEvent → ProtoSys
  | [] => sys
  | e :: es => runTrace (applyEvent sys e) es

/-- The ids present in `st'` but not in `st`: the posts created by a
step from `st` to `st'`. -/
def createdDuring (st st' : ServerState) : List Int :=
  (st'.posts.map Prod.fst).filter fun k => decide (alookup st.posts k = none)

/-- The ids of all posts created over a trace, in creation order. -/
def createdIds (sys : ProtoSys) : List TraceEvent → List Int
  | [] => []
  | e :: es =>
    createdDuring sys.store (applyEvent sys e).store
      ++ createdIds (applyEvent sys e) es

/-- `k` consecutive integers starting at `start`. -/
def intRange (start : Int) (k : Nat) : List Int :=
  (List.range k).map fun j => start + Int.ofNat j

/-- Every stored post id is below the allocation counter — true of all
reachable stores. -/
def postsBounded (st : ServerState) : Prop :=
  ∀ k ∈ st.posts.map Prod.fst, k < st.nextPostId

/-! ## Definitions following the spec's words, for comparison -/

/-- The spec's reading of command identification: the first
*whitespace*-delimited token of the line. -/
def specFirstToken (line : String) : Option String :=
  (pySplit line).head?

/-- The spec's reading of CR handling: strip *a* (single) trailing
carriage return. -/
def stripOneCR (l : List Char) : List Char :=
  if l.getLast? = some '\r' then l.dropLast else l

/-! ## Basic lemmas on the embedding's primitives -/

theorem mk_toList (s : String) : (⟨s.toList⟩ : String) = s := by
  cases s; rfl

theorem toList_append (s t : String) : (s ++ t).toList = s.toList ++ t.toList :=
  String.data_append s t

theorem append_ne_empty_left (s t : String) (h : s.toList ≠ []) : s ++ t ≠ "" := by
  intro he
  apply h
  have := congrArg String.toList he
  rw [toList_append] at this
  exact List.append_eq_nil.mp this |>.1

theorem breakAtSpace_no_space (l : List Char) (h : ' ' ∉ l) :
    breakAtSpace l = (l, none) := by
  induction l with
  | nil => rfl
  | cons c cs ih =>
    have hc : c ≠ ' ' := fun hc => h (hc ▸ List.mem_cons_self c cs)
    have hcs : ' ' ∉ cs := fun hm => h (List.mem_cons_of_mem c hm)
    simp [breakAtSpace, hc, ih hcs]

theorem breakAtSpace_space (l₁ l₂ : List Char) (h : ' ' ∉ l₁) :
    breakAtSpace (l₁ ++ ' ' :: l₂) = (l₁, some l₂) := by
  induction l₁ with
  | nil => simp [breakAtSpace]
  | cons c cs ih =>
    have hc : c ≠ ' ' := fun hc => h (hc ▸ List.mem_cons_self c cs)
    have hcs : ' ' ∉ cs := fun hm => h (List.mem_cons_of_mem c hm)
    simp [breakAtSpace, hc, ih hcs]

theorem pySplitSpace1_of_space (pre payload : String) (h : ' ' ∉ pre.toList) :
    pySplitSpace1 (pre ++ " " ++ payload) = (pre, some payload) := by
  unfold pySplitSpace1
  have : (pre ++ " " ++ payload).toList = pre.toList ++ ' ' :: payload.toList := by
    rw [toList_append, toList_append, List.append_assoc]; rfl
  rw [this, breakAtSpace_space _ _ h]
  simp [mk_toList]

theorem pySplitSpace1_no_space (line : String) (h : ' ' ∉ line.toList) :
    pySplitSpace1 line = (line, none) := by
  unfold pySplitSpace1
  rw [breakAtSpace_no_space _ h]
  simp [mk_toList]

theorem alookup_eq_none_iff {α β : Type} [DecidableEq α]
    (l : List (α × β)) (k : α) :
    alookup l k = none ↔ k ∉ l.map Prod.fst := by
  induction l with
  | nil => simp [alookup]
  | cons e rest ih =>
    obtain ⟨k', v⟩ := e
    by_cases hk : k = k' <;> simp [alookup, hk, ih]

theorem alookup_aerase_self {α β : Type} [DecidableEq α]
    (l : List (α × β)) (k : α) :
    alookup (aerase l k) k = none := by
  rw [alookup_eq_none_iff]
  intro hmem
  obtain ⟨e, he, hfst⟩ := List.mem_map.mp hmem
  have hp := (List.mem_filter.mp he).2
  simp at hp
  exact hp hfst

theorem alookup_aerase_ne {α β : Type} [DecidableEq α]
    (l : List (α × β)) (k j : α) (h : j ≠ k) :
    alookup (aerase l j) k = alookup l k := by
  induction l with
  | nil => rfl
  | cons e rest ih =>
    obtain ⟨k', v⟩ := e
    by_cases hj : k' = j
    · subst hj
      have hne : k ≠ k' := fun hk => h (hk ▸ rfl)
      simp [aerase, alookup, hne] at ih ⊢
      exact ih
    · by_cases hk : k = k' <;> (simp [aerase, alookup, hj, hk] at ih ⊢; try exact ih)

theorem aupsert_of_not_mem {α β : Type} [DecidableEq α]
    (l : List (α × β)) (k : α) (v : β) (h : k ∉ l.map Prod.fst) :
    aupsert l k v = l ++ [(k, v)] := by
  induction l with
  | nil => rfl
  | cons e rest ih =>
    obtain ⟨k', v'⟩ := e
    have hk : k ≠ k' := by simp at h; exact fun hq => h.1 hq
    have hrest : k ∉ rest.map Prod.fst := by simp at h ⊢; exact h.2
    simp [aupsert, hk, ih hrest]

/-- Dispatching a line of the shape `<token> <payload>` where the token
has no internal space: the upper-cased token selects the handler and the
payload is passed through verbatim. -/
theorem process_line_space (c : Client) (st : ServerState)
    (now pre payload : String) (hpre : ' ' ∉ pre.toList) :
    process_line c st now (pre ++ " " ++ payload) =
      (if pyUpper pre ∈ commandNames then
        let r := applyCommand (pyUpper pre) c st now payload
        ⟨r.client, r.state, some r.response, shouldClose (pyUpper pre)⟩
      else ⟨c, st, some "ERR UNKNOWN_COMMAND\n", false⟩) := by
  have hemp : pre ++ " " ++ payload ≠ "" :=
    append_ne_empty_left _ _ (by rw [toList_append]; simp)
  simp only [process_line, if_neg hemp, pySplitSpace1_of_space pre payload hpre,
    Option.getD_some]

/-- Dispatching a line with no space at all: the whole line is the
token and the handler payload is empty. -/
theorem process_line_no_space (c : Client) (st : ServerState)
    (now line : String) (hsp : ' ' ∉ line.toList) (hne : line ≠ "") :
    process_line c st now line =
      (if pyUpper line ∈ commandNames then
        let r := applyCommand (pyUpper line) c st now ""
        ⟨r.client, r.state, some r.response, shouldClose (pyUpper line)⟩
      else ⟨c, st, some "ERR UNKNOWN_COMMAND\n", false⟩) := by
  simp only [process_line, if_neg hne, pySplitSpace1_no_space line hsp,
    Option.getD_none]

/-! ## Claim theorems -/

/-- C10: `handle_login` tests the already-authenticated flag before
validating the argument count, so an authenticated session gets
`ERR Already logged in` for every LOGIN payload — zero, one, two or
more arguments — never `ERR BAD_SYNTAX`, and its username, role and
authenticated flag are unchanged (the session is returned as-is). -/
theorem login_already_logged_in_before_syntax (c : Client) (st : ServerState)
    (now rest : String) (h : c.authenticated = true) :
    handle_login c st rest = ⟨c, st, "ERR Already logged in\n"⟩ ∧
    process_line c st now ("LOGIN " ++ rest) =
      ⟨c, st, some "ERR Already logged in\n", false⟩ ∧
    process_line c st now "LOGIN" =
      ⟨c, st, some "ERR Already logged in\n", false⟩ := by
  have hh : handle_login c st rest = ⟨c, st, "ERR Already logged in\n"⟩ := by
    unfold handle_login; rw [h]; simp
  have hh0 : handle_login c st "" = ⟨c, st, "ERR Already logged in\n"⟩ := by
    unfold handle_login; rw [h]; simp
  refine ⟨hh, ?_, ?_⟩
  · have hsplit : ("LOGIN " : String) ++ rest = "LOGIN" ++ " " ++ rest := by
      have h2 : ("LOGIN " : String) = "LOGIN" ++ " " := by decide
      rw [h2]
    rw [hsplit, process_line_space c st now "LOGIN" rest (by decide)]
    have hup : pyUpper "LOGIN" = "LOGIN" := by decide
    rw [hup]
    simp [applyCommand, hh, shouldClose, commandNames]
  · rw [process_line_no_space c st now "LOGIN" (by decide) (by decide)]
    have hup : pyUpper "LOGIN" = "LOGIN" := by decide
    rw [hup]
    simp [applyCommand, hh0, shouldClose, commandNames]

/-- C10 witness: an authenticated session sending `LOGIN a b c`
(three arguments) still gets `ERR Already logged in`. -/
theorem login_already_logged_in_before_syntax_witness :
    (⟨some "sam", some "user", true⟩ : Client).authenticated = true ∧
    process_line ⟨some "sam", some "user", true⟩ initState "t" "LOGIN a b c" =
      ⟨⟨some "sam", some "user", true⟩, initState,
        some "ERR Already logged in\n", false⟩ := by
  refine ⟨rfl, ?_⟩
  have h := login_already_logged_in_before_syntax
    ⟨some "sam", some "user", true⟩ initState "t" "a b c" rfl
  have : ("LOGIN " : String) ++ "a b c" = "LOGIN a b c" := by decide
  rw [← this]
  exact h.2.1

/-- C9: the two failing LOGIN outcomes of an unauthenticated session —
username absent from the credential store, and known username with a
password failing verification — produce the identical response string
`ERR Invalid credentials`, revealing nothing about username existence. -/
theorem invalid_credentials_indistinguishable (c : Client) (st : ServerState)
    (rest u p : String)
    (hc : c.authenticated = false)
    (hparts : pySplit rest = [u, p]) :
    (alookup st.users u = none →
      handle_login c st rest = ⟨c, st, "ERR Invalid credentials\n"⟩) ∧
    (∀ rec, alookup st.users u = some rec → verify_password rec p = false →
      handle_login c st rest = ⟨c, st, "ERR Invalid credentials\n"⟩) := by
  constructor
  · intro hnone
    unfold handle_login
    rw [hc, if_neg (by simp), hparts]
    simp [hnone]
  · intro rec hrec hv
    unfold handle_login
    rw [hc, if_neg (by simp), hparts]
    simp [hrec, hv]

/-- C9 witness: `LOGIN ghost pw` (unknown user) and `LOGIN oliver wrong`
(known user, wrong password) both answer `ERR Invalid credentials`. -/
theorem invalid_credentials_indistinguishable_witness :
    pySplit "ghost pw" = ["ghost", "pw"] ∧
    handle_login freshClient initState "ghost pw" =
      ⟨freshClient, initState, "ERR Invalid credentials\n"⟩ ∧
    handle_login freshClient initState "oliver wrong" =
      ⟨freshClient, initState, "ERR Invalid credentials\n"⟩ := by
  refine ⟨by decide, ?_, ?_⟩
  · exact (invalid_credentials_indistinguishable freshClient initState
      "ghost pw" "ghost" "pw" rfl (by decide)).1 (by decide)
  · exact (invalid_credentials_indistinguishable freshClient initState
      "oliver wrong" "oliver" "wrong" rfl (by decide)).2
      ⟨phHash "pw1", some "user"⟩ (by decide) (by decide)

/-- C2 counterexample: the line `QUIT x` yields the protocol error
`ERR BAD_SYNTAX`, but the dispatcher's close-after-send flag is `true`
(the `COMMANDS` table pairs QUIT with an unconditional close), so the
connection does not stay open as the claim states. -/
theorem quit_syntax_error_closes :
    process_line freshClient initState "t" "QUIT x" =
      ⟨freshClient, initState, some "ERR BAD_SYNTAX\n", true⟩ := by
  decide

/-- C2 amended: a dispatch yielding a protocol/syntax error returns a
single `ERR <reason>` response, and the close flag is `false` for every
command except QUIT: the flag is `true` exactly when the line's
upper-cased first-space-delimited token is `QUIT`, so `QUIT` with an
argument answers `ERR BAD_SYNTAX` and still closes the connection. -/
theorem syntax_error_close_flag (c : Client) (st : ServerState)
    (now line : String) :
    ((process_line c st now line).close = true ↔
      line ≠ "" ∧ pyUpper (pySplitSpace1 line).1 = "QUIT") ∧
    (∀ payload, pyStrip payload ≠ "" →
      process_line c st now ("QUIT " ++ payload) =
        ⟨c, st, some "ERR BAD_SYNTAX\n", true⟩) ∧
    (line ≠ "" → pyUpper (pySplitSpace1 line).1 ∉ commandNames →
      process_line c st now line =
        ⟨c, st, some "ERR UNKNOWN_COMMAND\n", false⟩) := by
  refine ⟨?_, ?_, ?_⟩
  · by_cases hline : line = ""
    · simp [process_line, hline]
    · by_cases hmem : pyUpper (pySplitSpace1 line).1 ∈ commandNames
      · simp only [process_line, if_neg hline, if_pos hmem]
        simp only [shouldClose, decide_eq_true_eq]
        constructor
        · intro hq; exact ⟨hline, hq⟩
        · intro hq; exact hq.2
      · simp only [process_line, if_neg hline, if_neg hmem]
        simp only [Bool.false_eq_true, false_iff, not_and]
        intro _ hquit
        exact hmem (by rw [hquit]; decide)
  · intro payload hp
    have hsplit : ("QUIT " : String) ++ payload = "QUIT" ++ " " ++ payload := by
      have h2 : ("QUIT " : String) = "QUIT" ++ " " := by decide
      rw [h2]
    rw [hsplit, process_line_space c st now "QUIT" payload (by decide)]
    have hup : pyUpper "QUIT" = "QUIT" := by decide
    rw [hup]
    simp [applyCommand, handle_quit, hp, shouldClose, commandNames]
  · intro hline hmem
    simp [process_line, hline, hmem]

/-- C2 amended witness: `QUIT x` errors and closes; `FLY 1` is an
unknown command, reported with the connection left open. -/
theorem syntax_error_close_flag_witness :
    pyStrip "x" ≠ "" ∧
    process_line freshClient initState "t" ("QUIT " ++ "x") =
      ⟨freshClient, initState, some "ERR BAD_SYNTAX\n", true⟩ ∧
    ("FLY 1" : String) ≠ "" ∧
    pyUpper (pySplitSpace1 "FLY 1").1 ∉ commandNames ∧
    process_line freshClient initState "t" "FLY 1" =
      ⟨freshClient, initState, some "ERR UNKNOWN_COMMAND\n", false⟩ := by
  refine ⟨by decide, ?_, by decide, by decide, ?_⟩
  · exact (syntax_error_close_flag freshClient initState "t" "FLY 1").2.1
      "x" (by decide)
  · exact (syntax_error_close_flag freshClient initState "t" "FLY 1").2.2
      (by decide) (by decide)

/-- C7 counterexample: for the line `" LIST"` (leading space) the first
whitespace-delimited token is `LIST`, one of the eight known commands —
under the claim the line would be dispatched to the LIST handler, which
would answer `ERR Not logged in` for this unauthenticated session.  The
dispatcher instead splits at the first space character only, identifies
the empty command token, and answers `ERR UNKNOWN_COMMAND`. -/
theorem first_token_whitespace_counterexample :
    specFirstToken " LIST" = some "LIST" ∧
    "LIST" ∈ commandNames ∧
    process_line freshClient initState "t" " LIST" =
      ⟨freshClient, initState, some "ERR UNKNOWN_COMMAND\n", false⟩ ∧
    (handle_list freshClient initState "").response = "ERR Not logged in\n" := by
  decide

/-- C7 amended: the command is identified by the portion of the line
before the first *space character* (the entire line when it contains
none), matched case-insensitively after upper-casing; the remainder
after that first space is passed verbatim — not re-split — to the
handler, preserving internal spacing; any nonempty line whose
so-identified token is not one of the eight known commands yields
exactly `ERR UNKNOWN_COMMAND`. -/
theorem command_token_space_delimited (c : Client) (st : ServerState)
    (now pre payload line : String) (hpre : ' ' ∉ pre.toList)
    (hline : ' ' ∉ line.toList) (hlne : line ≠ "") :
    (pyUpper pre ∈ commandNames →
      process_line c st now (pre ++ " " ++ payload) =
        ⟨(applyCommand (pyUpper pre) c st now payload).client,
         (applyCommand (pyUpper pre) c st now payload).state,
         some (applyCommand (pyUpper pre) c st now payload).response,
         shouldClose (pyUpper pre)⟩) ∧
    (pyUpper pre ∉ commandNames →
      process_line c st now (pre ++ " " ++ payload) =
        ⟨c, st, some "ERR UNKNOWN_COMMAND\n", false⟩) ∧
    (pyUpper line ∈ commandNames →
      process_line c st now line =
        ⟨(applyCommand (pyUpper line) c st now "").client,
         (applyCommand (pyUpper line) c st now "").state,
         some (applyCommand (pyUpper line) c st now "").response,
         shouldClose (pyUpper line)⟩) ∧
    (pyUpper line ∉ commandNames →
      process_line c st now line =
        ⟨c, st, some "ERR UNKNOWN_COMMAND\n", false⟩) := by
  refine ⟨?_, ?_, ?_, ?_⟩
  · intro hmem
    rw [process_line_space c st now pre payload hpre]
    rw [if_pos hmem]
  · intro hmem
    rw [process_line_space c st now pre payload hpre]
    rw [if_neg hmem]
  · intro hmem
    rw [process_line_no_space c st now line hline hlne]
    rw [if_pos hmem]
  · intro hmem
    rw [process_line_no_space c st now line hline hlne]
    rw [if_neg hmem]

/-- C7 amended witness: `post hello  world` (lower case, doubled
internal space) dispatches to the POST handler with the message passed
verbatim; the unknown token `fly` yields `ERR UNKNOWN_COMMAND`. -/
theorem command_token_space_delimited_witness :
    (' ' ∉ "post".toList) ∧ pyUpper "post" ∈ commandNames ∧
    process_line ⟨some "oliver", some "user", true⟩ initState "t"
        ("post" ++ " " ++ "hello  world") =
      ⟨(applyCommand (pyUpper "post") ⟨some "oliver", some "user", true⟩
          initState "t" "hello  world").client,
       (applyCommand (pyUpper "post") ⟨some "oliver", some "user", true⟩
          initState "t" "hello  world").state,
       some (applyCommand (pyUpper "post") ⟨some "oliver", some "user", true⟩
          initState "t" "hello  world").response,
       shouldClose (pyUpper "post")⟩ ∧
    pyUpper "fly" ∉ commandNames ∧
    process_line freshClient initState "t" "fly" =
      ⟨freshClient, initState, some "ERR UNKNOWN_COMMAND\n", false⟩ := by
  refine ⟨by decide, by decide, ?_, by decide, ?_⟩
  · exact (command_token_space_delimited ⟨some "oliver", some "user", true⟩
      initState "t" "post" "hello  world" "fly" (by decide) (by decide)
      (by decide)).1 (by decide)
  · exact (command_token_space_delimited freshClient
      initState "t" "post" "hello  world" "fly" (by decide) (by decide)
      (by decide)).2.2.2 (by decide)

/-! ## Effect lemmas: which handlers touch which state -/

theorem handle_help_effect (c : Client) (st : ServerState) (rest : String) :
    (handle_help c st rest).client = c ∧ (handle_help c st rest).state = st := by
  unfold handle_help
  dsimp only
  repeat' split
  all_goals exact ⟨rfl, rfl⟩

theorem handle_whoami_effect (c : Client) (st : ServerState) (rest : String) :
    (handle_whoami c st rest).client = c ∧ (handle_whoami c st rest).state = st := by
  unfold handle_whoami
  repeat' split
  all_goals exact ⟨rfl, rfl⟩

theorem handle_quit_effect (c : Client) (st : ServerState) (rest : String) :
    (handle_quit c st rest).client = c ∧ (handle_quit c st rest).state = st := by
  unfold handle_quit
  repeat' split
  all_goals exact ⟨rfl, rfl⟩

theorem handle_get_effect (c : Client) (st : ServerState) (rest : String) :
    (handle_get c st rest).client = c ∧ (handle_get c st rest).state = st := by
  unfold handle_get
  dsimp only
  repeat' split
  all_goals exact ⟨rfl, rfl⟩

theorem handle_list_effect (c : Client) (st : ServerState) (rest : String) :
    (handle_list c st rest).client = c ∧ (handle_list c st rest).state = st := by
  unfold handle_list
  dsimp only
  repeat' split
  all_goals exact ⟨rfl, rfl⟩

theorem handle_login_state_effect (c : Client) (st : ServerState) (rest : String) :
    (handle_login c st rest).state = st := by
  unfold handle_login
  dsimp only
  repeat' split
  all_goals rfl

theorem handle_post_effect (c : Client) (st : ServerState) (now rest : String) :
    ((handle_post c st now rest).client = c ∧
      (handle_post c st now rest).state = st) ∨
    ((handle_post c st now rest).client = c ∧
      (handle_post c st now rest).state =
        { st with
            posts := aupsert st.posts st.nextPostId
              ⟨st.nextPostId, optStr c.username, now, rest⟩,
            nextPostId := st.nextPostId + 1 } ∧
      (handle_post c st now rest).response =
        "OK Post " ++ toString st.nextPostId ++ " created\n") := by
  unfold handle_post
  dsimp only
  repeat' split
  · exact Or.inl ⟨rfl, rfl⟩
  · exact Or.inl ⟨rfl, rfl⟩
  · exact Or.inr ⟨rfl, rfl, rfl⟩

theorem handle_del_effect (c : Client) (st : ServerState) (rest : String) :
    (handle_del c st rest).client = c ∧
    ((handle_del c st rest).state = st ∨
      ∃ k, (handle_del c st rest).state = { st with posts := aerase st.posts k }) := by
  unfold handle_del
  dsimp only
  repeat' split
  all_goals first
    | exact ⟨rfl, Or.inl rfl⟩
    | exact ⟨rfl, Or.inr ⟨_, rfl⟩⟩

/-- Any dispatch step leaves the store unchanged, appends one post under
the fresh id while bumping the counter, or erases one post; in every
case the credential store is untouched. -/
theorem process_line_store_effect (c : Client) (st : ServerState)
    (now line : String) :
    (process_line c st now line).state = st ∨
    (∃ p : Post, p.id = st.nextPostId ∧
      (process_line c st now line).state =
        { st with posts := aupsert st.posts st.nextPostId p,
                  nextPostId := st.nextPostId + 1 }) ∨
    (∃ k, (process_line c st now line).state =
      { st with posts := aerase st.posts k }) := by
  by_cases hline : line = ""
  · left; simp [process_line, hline]
  · by_cases hmem : pyUpper (pySplitSpace1 line).1 ∈ commandNames
    · simp only [process_line, if_neg hline, if_pos hmem]
      set cmd := pyUpper (pySplitSpace1 line).1 with hcmd
      set rest := (pySplitSpace1 line).2.getD "" with hrest
      unfold applyCommand
      repeat' split
      · left; exact (handle_help_effect c st rest).2
      · left; exact handle_login_state_effect c st rest
      · rcases handle_post_effect c st now rest with ⟨_, hst⟩ | ⟨_, hst, _⟩
        · left; exact hst
        · right; left; exact ⟨_, rfl, hst⟩
      · left; exact (handle_list_effect c st rest).2
      · left; exact (handle_get_effect c st rest).2
      · rcases (handle_del_effect c st rest).2 with hst | ⟨k, hst⟩
        · left; exact hst
        · right; right; exact ⟨k, hst⟩
      · left; exact (handle_whoami_effect c st rest).2
      · left; exact (handle_quit_effect c st rest).2
    · left; simp [process_line, hline, hmem]

/-- Corollary: no dispatch step changes the credential store. -/
theorem process_line_users_unchanged (c : Client) (st : ServerState)
    (now line : String) :
    (process_line c st now line).state.users = st.users := by
  rcases process_line_store_effect c st now line with h | ⟨p, _, h⟩ | ⟨k, h⟩ <;>
    rw [h]

/-- C1: DEL checks existence before authorization.  For every
authenticated session and every DEL argument parsing to id `i`: when no
post has id `i` the answer is `ERR Not found` whatever the session's
role or username; when post `p` has id `i`, the post is deleted with
`OK Deleted i` iff the session's role is admin or its username is `p`'s
author, and otherwise `ERR Not authorized` is returned with the store
unchanged. -/
theorem del_existence_before_authorization (c : Client) (st : ServerState)
    (rest tok : String) (i : Int)
    (hauth : c.authenticated = true)
    (htok : pySplit rest = [tok]) (hi : pyParseInt tok = some i) :
    (alookup st.posts i = none →
      handle_del c st rest = ⟨c, st, "ERR Not found\n"⟩) ∧
    (∀ p, alookup st.posts i = some p →
      ((c.role = some "admin" ∨ c.username = some p.author) →
        handle_del c st rest =
          ⟨c, { st with posts := aerase st.posts i },
            "OK Deleted " ++ toString i ++ "\n"⟩) ∧
      (¬(c.role = some "admin" ∨ c.username = some p.author) →
        handle_del c st rest = ⟨c, st, "ERR Not authorized\n"⟩)) := by
  have hra : require_auth c = none := by simp [require_auth, hauth]
  constructor
  · intro hnone
    simp [handle_del, hra, htok, hi, hnone]
  · intro p hp
    constructor
    · intro hok
      have hcond : ¬(c.role ≠ some "admin" ∧ some p.author ≠ c.username) := by
        rcases hok with h1 | h2
        · exact fun hc => hc.1 h1
        · exact fun hc => hc.2 h2.symm
      simp [handle_del, hra, htok, hi, hp, hcond]
    · intro hnot
      have hcond : c.role ≠ some "admin" ∧ some p.author ≠ c.username :=
        ⟨fun h1 => hnot (Or.inl h1), fun h2 => hnot (Or.inr h2.symm)⟩
      simp [handle_del, hra, htok, hi, hp, hcond]

/-- C1 witness: with post 1 authored by oliver, `DEL 1` from sam is
refused leaving the store unchanged, admin's `DEL 1` deletes it, and
`DEL 1` against an empty store reports not-found. -/
theorem del_existence_before_authorization_witness :
    pySplit "1" = ["1"] ∧ pyParseInt "1" = some 1 ∧
    handle_del ⟨some "sam", some "user", true⟩
        ⟨USERS, [(1, ⟨1, "oliver", "ts", "hi"⟩)], 2⟩ "1" =
      ⟨⟨some "sam", some "user", true⟩,
        ⟨USERS, [(1, ⟨1, "oliver", "ts", "hi"⟩)], 2⟩, "ERR Not authorized\n"⟩ ∧
    handle_del ⟨some "admin", some "admin", true⟩
        ⟨USERS, [(1, ⟨1, "oliver", "ts", "hi"⟩)], 2⟩ "1" =
      ⟨⟨some "admin", some "admin", true⟩,
        { (⟨USERS, [(1, ⟨1, "oliver", "ts", "hi"⟩)], 2⟩ : ServerState) with
            posts := aerase [(1, ⟨1, "oliver", "ts", "hi"⟩)] 1 },
        "OK Deleted " ++ toString (1 : Int) ++ "\n"⟩ ∧
    handle_del ⟨some "sam", some "user", true⟩ ⟨USERS, [], 2⟩ "1" =
      ⟨⟨some "sam", some "user", true⟩, ⟨USERS, [], 2⟩, "ERR Not found\n"⟩ := by
  refine ⟨by decide, by decide, ?_, ?_, ?_⟩
  · exact ((del_existence_before_authorization ⟨some "sam", some "user", true⟩
      ⟨USERS, [(1, ⟨1, "oliver", "ts", "hi"⟩)], 2⟩ "1" "1" 1 rfl (by decide)
      (by decide)).2 ⟨1, "oliver", "ts", "hi"⟩ (by decide)).2 (by decide)
  · exact ((del_existence_before_authorization ⟨some "admin", some "admin", true⟩
      ⟨USERS, [(1, ⟨1, "oliver", "ts", "hi"⟩)], 2⟩ "1" "1" 1 rfl (by decide)
      (by decide)).2 ⟨1, "oliver", "ts", "hi"⟩ (by decide)).1 (Or.inl rfl)
  · exact (del_existence_before_authorization ⟨some "sam", some "user", true⟩
      ⟨USERS, [], 2⟩ "1" "1" 1 rfl (by decide) (by decide)).1 (by decide)

/-- C5: a successful LOGIN assigns the session the role read from the
stored credential record (defaulting to `user` when the record has
none), a value that does not depend on the supplied password or on any
other client input; and no protocol message whatsoever modifies the
credential store, so roles fixed at seed time are never set or altered
over the wire. -/
theorem role_never_from_client_input (c : Client) (st : ServerState)
    (rest u p : String) (rec : UserRec)
    (hc : c.authenticated = false)
    (hparts : pySplit rest = [u, p])
    (hrec : alookup st.users u = some rec) :
    (verify_password rec p = true →
      handle_login c st rest =
        ⟨⟨some u, some (rec.role.getD "user"), true⟩, st,
          "OK Logged in as " ++ u ++ " (" ++ rec.role.getD "user" ++ ")\n"⟩) ∧
    (∀ c' now line, (process_line c' st now line).state.users = st.users) := by
  constructor
  · intro hv
    unfold handle_login
    rw [hc, if_neg (by simp), hparts]
    simp [hrec, hv]
  · intro c' now line
    exact process_line_users_unchanged c' st now line

/-- C5 witness: `LOGIN admin adminpw` yields the seeded admin role, and
a dispatched line leaves the credential store intact. -/
theorem role_never_from_client_input_witness :
    pySplit "admin adminpw" = ["admin", "adminpw"] ∧
    alookup initState.users "admin" = some ⟨phHash "adminpw", some "admin"⟩ ∧
    verify_password ⟨phHash "adminpw", some "admin"⟩ "adminpw" = true ∧
    handle_login freshClient initState "admin adminpw" =
      ⟨⟨some "admin", some "admin", true⟩, initState,
        "OK Logged in as admin (admin)\n"⟩ ∧
    (process_line freshClient initState "t" "LOGIN admin adminpw").state.users
      = initState.users := by
  refine ⟨by decide, by decide, by decide, ?_, ?_⟩
  · exact (role_never_from_client_input freshClient initState
      "admin adminpw" "admin" "adminpw" ⟨phHash "adminpw", some "admin"⟩ rfl
      (by decide) (by decide)).1 (by decide)
  · exact (role_never_from_client_input freshClient initState
      "admin adminpw" "admin" "adminpw" ⟨phHash "adminpw", some "admin"⟩ rfl
      (by decide) (by decide)).2 freshClient "t" "LOGIN admin adminpw"

/-! ## Line extraction lemmas -/

theorem splitAtNewline_sound :
    ∀ buf raw rest : List Char, splitAtNewline buf = some (raw, rest) →
      buf = raw ++ '\n' :: rest ∧ '\n' ∉ raw := by
  intro buf
  induction buf with
  | nil => intro raw rest h; simp [splitAtNewline] at h
  | cons c cs ih =>
    intro raw rest h
    by_cases hc : c = '\n'
    · subst hc
      simp [splitAtNewline] at h
      obtain ⟨h1, h2⟩ := h
      subst h1; subst h2
      simp
    · simp only [splitAtNewline, if_neg hc] at h
      cases hsp : splitAtNewline cs with
      | none => rw [hsp] at h; simp at h
      | some p =>
        rw [hsp] at h
        simp at h
        obtain ⟨h1, h2⟩ := h
        obtain ⟨hb, hn⟩ := ih p.1 p.2 (by rw [hsp])
        subst h1; subst h2
        refine ⟨by rw [hb, List.cons_append], ?_⟩
        intro hmem
        rcases List.mem_cons.mp hmem with hq | hq
        · exact hc hq.symm
        · exact hn hq

theorem dropWhile_head_not {α : Type} {p : α → Bool} :
    ∀ (l : List α) (c : α), (l.dropWhile p).head? = some c → p c = false := by
  intro l
  induction l with
  | nil => intro c h; simp [List.dropWhile] at h
  | cons a as ih =>
    intro c h
    by_cases ha : p a
    · rw [List.dropWhile_cons_of_pos ha] at h
      exact ih c h
    · rw [List.dropWhile_cons_of_neg ha] at h
      simp at h
      rw [← h]
      exact Bool.of_not_eq_true ha

/-- What `rstrip("\r")` removes is exactly the maximal run of trailing
carriage returns: the line is an initial segment of the raw text, the
removed suffix is all CRs, and the line itself does not end in CR. -/
theorem rstripCR_spec (l : List Char) :
    (∃ k, l = rstripCR l ++ List.replicate k '\r') ∧
    (rstripCR l).getLast? ≠ some '\r' := by
  constructor
  · refine ⟨(l.reverse.takeWhile (· = '\r')).length, ?_⟩
    have htk : ∀ c ∈ l.reverse.takeWhile (· = '\r'), c = '\r' := by
      intro c hc
      have := List.mem_takeWhile_imp hc
      simpa using this
    have hrep : l.reverse.takeWhile (· = '\r') =
        List.replicate (l.reverse.takeWhile (· = '\r')).length '\r' :=
      List.eq_replicate_length.mpr htk
    have hsplit := List.takeWhile_append_dropWhile (p := (· = '\r')) (l := l.reverse)
    calc l = l.reverse.reverse := (List.reverse_reverse l).symm
    _ = (l.reverse.takeWhile (· = '\r') ++ l.reverse.dropWhile (· = '\r')).reverse := by
        rw [hsplit]
    _ = rstripCR l ++ (l.reverse.takeWhile (· = '\r')).reverse := by
        rw [List.reverse_append]; rfl
    _ = rstripCR l ++ List.replicate (l.reverse.takeWhile (· = '\r')).length '\r' := by
        rw [hrep]; simp [List.reverse_replicate]
  · intro hlast
    rw [rstripCR, List.getLast?_reverse] at hlast
    have := dropWhile_head_not (l.reverse) '\r' hlast
    simp at this

/-- C8 counterexample: extracting from the buffer `"hi\r\r\nX"` the code
removes *both* trailing carriage returns, producing the line `hi`,
whereas stripping "a trailing carriage return" and "never any other
whitespace" would leave `hi\r` — a second whitespace character (the
inner CR) is stripped, observably changing the dispatched line. -/
theorem crstrip_counterexample :
    splitAtNewline "hi\r\r\nX".toList = some ("hi\r\r".toList, "X".toList) ∧
    stripOneCR "hi\r\r".toList = "hi\r".toList ∧
    rstripCR "hi\r\r".toList = "hi".toList ∧
    "hi".toList ≠ "hi\r".toList := by
  decide

/-- C8 amended: line extraction repeatedly takes the longest prefix
ending at the first newline delimiter, strips the *maximal run of
trailing carriage returns* from it (never stripping any other
character — the line is an initial segment of the raw prefix), hands
the remainder back as the pending buffer, and an extracted line that is
empty after CR-stripping is silently ignored: the drain loop continues
with no dispatch, no response and no state change. -/
theorem line_extraction_crs_ignored_empty (buf raw rest : List Char)
    (h : splitAtNewline buf = some (raw, rest)) :
    buf = raw ++ '\n' :: rest ∧ '\n' ∉ raw ∧
    (∃ k, raw = rstripCR raw ++ List.replicate k '\r') ∧
    (rstripCR raw).getLast? ≠ some '\r' ∧
    (∀ now fuel c st acc, rstripCR raw = [] →
      drainLines now (fuel + 1) c st buf acc = drainLines now fuel c st rest acc) := by
  obtain ⟨hb, hn⟩ := splitAtNewline_sound buf raw rest h
  obtain ⟨hks, hlast⟩ := rstripCR_spec raw
  refine ⟨hb, hn, hks, hlast, ?_⟩
  intro now fuel c st acc hempty
  simp [drainLines, h, hempty]

/-- C8 amended witness: the buffer `"hi\r\r\nX"` splits into raw prefix
`hi\r\r` and pending `X`; the buffer `"\r\nX"` yields an empty line after
CR-stripping, and the drain loop skips it without any output. -/
theorem line_extraction_crs_ignored_empty_witness :
    splitAtNewline "hi\r\r\nX".toList = some ("hi\r\r".toList, "X".toList) ∧
    "hi\r\r\nX".toList = "hi\r\r".toList ++ '\n' :: "X".toList ∧
    splitAtNewline "\r\nX".toList = some ("\r".toList, "X".toList) ∧
    rstripCR "\r".toList = [] ∧
    drainLines "t" 1 freshClient initState "\r\nX".toList [] =
      drainLines "t" 0 freshClient initState "X".toList [] := by
  refine ⟨by decide, ?_, by decide, by decide, ?_⟩
  · exact (line_extraction_crs_ignored_empty "hi\r\r\nX".toList
      "hi\r\r".toList "X".toList (by decide)).1
  · exact (line_extraction_crs_ignored_empty "\r\nX".toList
      "\r".toList "X".toList (by decide)).2.2.2.2 "t" 0 freshClient initState
      [] (by decide)

/-! ## Buffer cap -/

theorem encodedByteLength_append (a b : List Char) :
    encodedByteLength (a ++ b) = encodedByteLength a + encodedByteLength b := by
  simp [encodedByteLength]

theorem encodedByteLength_replicate (n : Nat) (c : Char) :
    encodedByteLength (List.replicate n c) = n * c.utf8Size := by
  induction n with
  | zero => simp [encodedByteLength]
  | succ n ih =>
    simp only [List.replicate_succ, encodedByteLength, List.map_cons,
      List.sum_cons] at ih ⊢
    rw [ih, Nat.succ_mul]
    omega

/-- C6: when appending received text pushes a connection's accumulated
buffer over the fixed 64 KiB cap, the server emits the single
best-effort line `ERR Line too long` and closes that connection without
extracting or dispatching any buffered line: the post store and
credential store are unchanged (the whole protocol store is returned
as-is), the connection is removed, and every other connection's session
and buffer are untouched. -/
theorem buffer_cap_closes_connection (sys : SysState) (cid : Nat)
    (conn : ConnState) (text : List Char) (now : String)
    (hconn : alookup sys.conns cid = some conn)
    (hover : encodedByteLength (conn.buffer ++ text) > MAX_BUFFER_BYTES) :
    receiveData sys cid text now =
      (⟨aerase sys.conns cid, sys.store⟩, ["ERR Line too long\n"]) ∧
    (receiveData sys cid text now).1.store = sys.store ∧
    alookup (receiveData sys cid text now).1.conns cid = none ∧
    (∀ j, j ≠ cid →
      alookup (receiveData sys cid text now).1.conns j = alookup sys.conns j) := by
  have hrd : receiveData sys cid text now =
      (⟨aerase sys.conns cid, sys.store⟩, ["ERR Line too long\n"]) := by
    simp [receiveData, hconn, hover]
  refine ⟨hrd, by rw [hrd], ?_, ?_⟩
  · rw [hrd]; exact alookup_aerase_self _ _
  · intro j hj; rw [hrd]; exact alookup_aerase_ne _ _ _ (Ne.symm hj)

/-- C6 witness: a connection whose buffer holds exactly 64 KiB receives
one more byte; only `ERR Line too long` is sent, the store survives and
the connection is gone. -/
theorem buffer_cap_closes_connection_witness :
    alookup [(0, (⟨List.replicate 65536 'A', freshClient⟩ : ConnState))] 0 =
      some ⟨List.replicate 65536 'A', freshClient⟩ ∧
    encodedByteLength (List.replicate 65536 'A' ++ ['A']) > MAX_BUFFER_BYTES ∧
    receiveData ⟨[(0, ⟨List.replicate 65536 'A', freshClient⟩)], initState⟩
        0 ['A'] "t" =
      (⟨aerase [(0, ⟨List.replicate 65536 'A', freshClient⟩)] 0, initState⟩,
        ["ERR Line too long\n"]) := by
  have hover : encodedByteLength (List.replicate 65536 'A' ++ ['A'])
      > MAX_BUFFER_BYTES := by
    rw [encodedByteLength_append, encodedByteLength_replicate]
    have hA : Char.utf8Size 'A' = 1 := rfl
    rw [hA]
    decide
  refine ⟨rfl, hover, ?_⟩
  exact (buffer_cap_closes_connection
    ⟨[(0, ⟨List.replicate 65536 'A', freshClient⟩)], initState⟩ 0
    ⟨List.replicate 65536 'A', freshClient⟩ ['A'] "t" rfl hover).1

/-! ## Id allocation over traces -/

theorem createdDuring_of_sub (st st' : ServerState)
    (h : ∀ k ∈ st'.posts.map Prod.fst, k ∈ st.posts.map Prod.fst) :
    createdDuring st st' = [] := by
  unfold createdDuring
  rw [List.filter_eq_nil_iff]
  intro k hk
  simp only [decide_eq_true_eq]
  rw [alookup_eq_none_iff]
  exact fun hq => hq (h k hk)

theorem createdDuring_post (st : ServerState) (p : Post)
    (hinv : postsBounded st) :
    createdDuring st
      { st with posts := aupsert st.posts st.nextPostId p,
                nextPostId := st.nextPostId + 1 } = [st.nextPostId] := by
  have hnotmem : st.nextPostId ∉ st.posts.map Prod.fst :=
    fun hmem => lt_irrefl _ (hinv _ hmem)
  unfold createdDuring
  simp only [aupsert_of_not_mem _ _ _ hnotmem, List.map_append,
    List.filter_append]
  have h1 : (st.posts.map Prod.fst).filter
      (fun k => decide (alookup st.posts k = none)) = [] := by
    rw [List.filter_eq_nil_iff]
    intro k hk
    simp only [decide_eq_true_eq]
    rw [alookup_eq_none_iff]
    exact fun hq => hq hk
  have h2 : ([(st.nextPostId, p)].map Prod.fst).filter
      (fun k => decide (alookup st.posts k = none)) = [st.nextPostId] := by
    simp [List.filter, alookup_eq_none_iff, hnotmem]
  rw [h1, h2, List.nil_append]

theorem postsBounded_step (c : Client) (st : ServerState) (now line : String)
    (hinv : postsBounded st) :
    postsBounded (process_line c st now line).state := by
  rcases process_line_store_effect c st now line with h | ⟨p, _, h⟩ | ⟨k, h⟩
  · rw [h]; exact hinv
  · rw [h]
    intro j hj
    dsimp only at hj ⊢
    have hnotmem : st.nextPostId ∉ st.posts.map Prod.fst :=
      fun hmem => lt_irrefl _ (hinv _ hmem)
    simp only [aupsert_of_not_mem _ _ _ hnotmem, List.map_append] at hj
    rcases List.mem_append.mp hj with hq | hq
    · exact lt_trans (hinv _ hq) (by omega)
    · simp at hq
      omega
  · rw [h]
    intro j hj
    dsimp only at hj ⊢
    apply hinv
    simp only [List.mem_map] at hj ⊢
    obtain ⟨e, he, hfst⟩ := hj
    exact ⟨e, List.mem_of_mem_filter he, hfst⟩

/-- One event either leaves the counter alone and creates nothing, or
creates exactly the post carrying the old counter value and bumps the
counter by one; the boundedness invariant is preserved. -/
theorem applyEvent_store (sys : ProtoSys) (e : TraceEvent)
    (hinv : postsBounded sys.store) :
    postsBounded (applyEvent sys e).store ∧
    ((createdDuring sys.store (applyEvent sys e).store = [] ∧
      (applyEvent sys e).store.nextPostId = sys.store.nextPostId) ∨
     (createdDuring sys.store (applyEvent sys e).store =
        [sys.store.nextPostId] ∧
      (applyEvent sys e).store.nextPostId = sys.store.nextPostId + 1)) := by
  cases e with
  | accept sid =>
    refine ⟨hinv, Or.inl ⟨?_, rfl⟩⟩
    exact createdDuring_of_sub _ _ (fun k hk => hk)
  | input sid now line =>
    cases halk : alookup sys.sessions sid with
    | none =>
      have hsys : applyEvent sys (.input sid now line) = sys := by
        simp only [applyEvent, halk]
      rw [hsys]
      exact ⟨hinv, Or.inl ⟨createdDuring_of_sub _ _ (fun k hk => hk), rfl⟩⟩
    | some c =>
      have hstore : (applyEvent sys (.input sid now line)).store =
          (process_line c sys.store now line).state := by
        simp only [applyEvent, halk]
        split <;> rfl
      rw [hstore]
      refine ⟨postsBounded_step c sys.store now line hinv, ?_⟩
      rcases process_line_store_effect c sys.store now line with
        h | ⟨p, _, h⟩ | ⟨k, h⟩
      · rw [h]
        exact Or.inl ⟨createdDuring_of_sub _ _ (fun k hk => hk), rfl⟩
      · rw [h]
        exact Or.inr ⟨createdDuring_post sys.store p hinv, rfl⟩
      · rw [h]
        refine Or.inl ⟨?_, rfl⟩
        apply createdDuring_of_sub
        intro j hj
        simp only [List.mem_map] at hj ⊢
        obtain ⟨x, hx, hfst⟩ := hj
        exact ⟨x, List.mem_of_mem_filter hx, hfst⟩

theorem intRange_succ (start : Int) (k : Nat) :
    intRange start (k + 1) = start :: intRange (start + 1) k := by
  unfold intRange
  rw [List.range_succ_eq_map, List.map_cons, List.map_map]
  congr 1
  · simp
  · apply List.map_congr_left
    intro j _
    simp [Function.comp]
    omega

theorem createdIds_trace :
    ∀ (events : List TraceEvent) (sys : ProtoSys), postsBounded sys.store →
      createdIds sys events =
        intRange sys.store.nextPostId (createdIds sys events).length ∧
      (runTrace sys events).store.nextPostId =
        sys.store.nextPostId + (createdIds sys events).length := by
  intro events
  induction events with
  | nil => intro sys _; simp [createdIds, runTrace, intRange]
  | cons e es ih =>
    intro sys hinv
    obtain ⟨hbnd, hcase⟩ := applyEvent_store sys e hinv
    obtain ⟨ih1, ih2⟩ := ih (applyEvent sys e) hbnd
    simp only [createdIds, runTrace]
    rcases hcase with ⟨hc, hn⟩ | ⟨hc, hn⟩
    · rw [hc, List.nil_append]
      rw [hn] at ih1 ih2
      exact ⟨ih1, ih2⟩
    · rw [hc, List.singleton_append, List.length_cons, intRange_succ]
      rw [hn] at ih1 ih2
      refine ⟨by rw [← ih1], by rw [ih2]; omega⟩

/-- C4: starting from the initial state (counter 1, empty store), over
every sequence of events — connections accepted, lines dispatched on
any sessions, failed POSTs and deletions interleaved arbitrarily — the
ids of the posts actually created form exactly the consecutive run
1, 2, …, k (strictly increasing, no reuse: the list has no duplicates,
so an id deleted after creation is never assigned again), and the
allocation counter ends at 1 + k, incremented exactly once per created
post and by no other operation. -/
theorem post_id_allocation :
    initState.nextPostId = 1 ∧
    ∀ events : List TraceEvent,
      createdIds initProtoSys events =
        intRange 1 (createdIds initProtoSys events).length ∧
      (runTrace initProtoSys events).store.nextPostId =
        1 + (createdIds initProtoSys events).length ∧
      (createdIds initProtoSys events).Nodup := by
  refine ⟨rfl, fun events => ?_⟩
  have hinv : postsBounded initProtoSys.store := by
    intro k hk
    simp [initProtoSys, initState] at hk
  obtain ⟨h1, h2⟩ := createdIds_trace events initProtoSys hinv
  refine ⟨h1, h2, ?_⟩
  rw [h1]
  unfold intRange
  apply List.Nodup.map
  · intro a b hab
    have h3 : (1 : Int) + Int.ofNat a = 1 + Int.ofNat b := hab
    exact Int.ofNat.inj (Int.add_left_cancel h3)
  · exact List.nodup_range _

/-! ## Count-framed responses (LIST / HELP) -/

theorem splitLinesL_append (xs ys : List Char) (h : '\n' ∉ xs) :
    splitLinesL (xs ++ '\n' :: ys) = xs :: splitLinesL ys := by
  induction xs with
  | nil => simp [splitLinesL]
  | cons c cs ih =>
    have hc : c ≠ '\n' := fun hq => h (hq ▸ List.mem_cons_self c cs)
    have hcs : '\n' ∉ cs := fun hm => h (List.mem_cons_of_mem c hm)
    simp only [List.cons_append, splitLinesL, if_neg hc]
    show (match splitLinesL (cs ++ '\n' :: ys) with
      | [] => [[c]]
      | l :: ls => (c :: l) :: ls) = (c :: cs) :: splitLinesL ys
    rw [ih hcs]

theorem splitLinesL_joinLinesL :
    ∀ ls : List (List Char), ls ≠ [] → (∀ p ∈ ls, '\n' ∉ p) →
      splitLinesL (joinLinesL ls ++ ['\n']) = ls ++ [[]] := by
  intro ls
  induction ls with
  | nil => intro h; exact absurd rfl h
  | cons x t ih =>
    intro _ hnl
    cases t with
    | nil =>
      show splitLinesL (x ++ '\n' :: []) = [x] ++ [[]]
      rw [splitLinesL_append x [] (hnl x (List.mem_cons_self _ _))]
      rfl
    | cons y t' =>
      have hj : joinLinesL (x :: y :: t') = x ++ '\n' :: joinLinesL (y :: t') :=
        rfl
      rw [hj, List.append_assoc, List.cons_append,
        splitLinesL_append x _ (hnl x (List.mem_cons_self _ _)),
        ih (by simp) (fun p hp => hnl p (List.mem_cons_of_mem _ hp))]
      rfl

/-- Round trip: splitting a `\n`-joined, `\n`-terminated frame back
into its delimiter-terminated lines recovers the pieces, provided no
piece contains the delimiter. -/
theorem wireLines_join (ls : List String) (hne : ls ≠ [])
    (hnl : ∀ s ∈ ls, '\n' ∉ s.toList) :
    wireLines (joinLines ls ++ "\n") = ls.map String.toList := by
  unfold wireLines
  have ht : (joinLines ls ++ "\n").toList =
      joinLinesL (ls.map String.toList) ++ ['\n'] := by
    rw [toList_append]; rfl
  rw [ht, splitLinesL_joinLinesL (ls.map String.toList)
    (by simpa using hne)
    (by intro p hp
        obtain ⟨s, hs, hrfl⟩ := List.mem_map.mp hp
        exact hrfl ▸ hnl s hs)]
  simp

/-! ### Decimal headers contain no newline -/

set_option maxHeartbeats 1000000 in
theorem digitChar_ne_newline (m : Nat) : Nat.digitChar m ≠ '\n' := by
  rcases Nat.lt_or_ge m 16 with h | h
  · interval_cases m <;> decide
  · have h16 : Nat.digitChar m = '*' := by
      show (if m = 0 then '0' else if m = 1 then '1' else if m = 2 then '2'
        else if m = 3 then '3' else if m = 4 then '4' else if m = 5 then '5'
        else if m = 6 then '6' else if m = 7 then '7' else if m = 8 then '8'
        else if m = 9 then '9' else if m = 10 then 'a' else if m = 11 then 'b'
        else if m = 12 then 'c' else if m = 13 then 'd' else if m = 14 then 'e'
        else if m = 15 then 'f' else '*') = '*'
      have hne : ∀ j : Nat, j < 16 → ¬ m = j := fun j hj hq => by omega
      rw [if_neg (hne 0 (by decide)), if_neg (hne 1 (by decide)),
          if_neg (hne 2 (by decide)), if_neg (hne 3 (by decide)),
          if_neg (hne 4 (by decide)), if_neg (hne 5 (by decide)),
          if_neg (hne 6 (by decide)), if_neg (hne 7 (by decide)),
          if_neg (hne 8 (by decide)), if_neg (hne 9 (by decide)),
          if_neg (hne 10 (by decide)), if_neg (hne 11 (by decide)),
          if_neg (hne 12 (by decide)), if_neg (hne 13 (by decide)),
          if_neg (hne 14 (by decide)), if_neg (hne 15 (by decide))]
    rw [h16]; decide

theorem toDigitsCore_no_newline :
    ∀ (fuel n : Nat) (acc : List Char), (∀ c ∈ acc, c ≠ '\n') →
      ∀ c ∈ Nat.toDigitsCore 10 fuel n acc, c ≠ '\n' := by
  intro fuel
  induction fuel with
  | zero => intro n acc hacc c hc; exact hacc c hc
  | succ f ih =>
    intro n acc hacc c hc
    simp only [Nat.toDigitsCore] at hc
    have hd : ∀ x ∈ Nat.digitChar (n % 10) :: acc, x ≠ '\n' := by
      intro x hx
      rcases List.mem_cons.mp hx with hq | hq
      · exact hq ▸ digitChar_ne_newline (n % 10)
      · exact hacc x hq
    split at hc
    · exact hd c hc
    · exact ih (n / 10) _ hd c hc

theorem nat_toString_no_newline (n : Nat) : '\n' ∉ (toString n).toList := by
  intro hmem
  have h : (toString n).toList = Nat.toDigitsCore 10 (n + 1) n [] := rfl
  rw [h] at hmem
  exact toDigitsCore_no_newline (n + 1) n [] (by intro c hc; cases hc) '\n' hmem rfl

/-! ### Association-list enumeration -/

theorem filterMap_ext_mem {α β : Type} (l : List α) (f g : α → Option β)
    (h : ∀ a ∈ l, f a = g a) : l.filterMap f = l.filterMap g := by
  induction l with
  | nil => rfl
  | cons a t ih =>
    simp only [List.filterMap_cons, h a (List.mem_cons_self _ _)]
    rw [ih (fun x hx => h x (List.mem_cons_of_mem _ hx))]

theorem alookup_mem {α β : Type} [DecidableEq α] :
    ∀ (l : List (α × β)) (k : α) (v : β), alookup l k = some v → (k, v) ∈ l := by
  intro l
  induction l with
  | nil => intro k v h; simp [alookup] at h
  | cons e t ih =>
    intro k v h
    obtain ⟨k', v'⟩ := e
    by_cases hk : k = k'
    · subst hk
      simp [alookup] at h
      subst h
      exact List.mem_cons_self _ _
    · simp only [alookup, if_neg hk] at h
      exact List.mem_cons_of_mem _ (ih k v h)

/-- Looking every key of a duplicate-free association list back up
enumerates exactly its values. -/
theorem filterMap_alookup_keys {α β : Type} [DecidableEq α]
    (l : List (α × β)) (hnd : (l.map Prod.fst).Nodup) :
    ((l.map Prod.fst).filterMap fun k => alookup l k) = l.map Prod.snd := by
  induction l with
  | nil => rfl
  | cons e rest ih =>
    obtain ⟨k₀, v₀⟩ := e
    simp only [List.map_cons] at hnd ⊢
    obtain ⟨hk₀, hndr⟩ := List.nodup_cons.mp hnd
    have h0 : alookup ((k₀, v₀) :: rest) k₀ = some v₀ := by simp [alookup]
    simp only [List.filterMap_cons, h0]
    have hcong : ∀ k ∈ rest.map Prod.fst,
        alookup ((k₀, v₀) :: rest) k = alookup rest k := by
      intro k hk
      have hne : k ≠ k₀ := fun hq => hk₀ (hq ▸ hk)
      simp [alookup, hne]
    rw [filterMap_ext_mem _ _ _ hcong, ih hndr]

theorem filterMap_alookup_map_id (posts : List (Int × Post)) :
    ∀ ks : List Int, (∀ k ∈ ks, ∃ p, alookup posts k = some p ∧ p.id = k) →
      ((ks.filterMap fun k => alookup posts k).map Post.id) = ks := by
  intro ks
  induction ks with
  | nil => intro _; rfl
  | cons k t ih =>
    intro h
    obtain ⟨p, hp, hid⟩ := h k (List.mem_cons_self _ _)
    simp only [List.filterMap_cons, hp, List.map_cons]
    rw [ih (fun x hx => h x (List.mem_cons_of_mem _ hx)), hid]

/-- `countFramed` is a `\n`-joined, `\n`-terminated frame whose first
piece is the header. -/
theorem countFramed_eq_join (tag : String) (body : List String)
    (h : body ≠ []) :
    countFramed tag body =
      joinLines (("OK " ++ tag ++ " " ++ toString body.length) :: body)
        ++ "\n" := by
  cases body with
  | nil => exact absurd rfl h
  | cons b t =>
    apply String.ext
    simp only [countFramed, joinLines, String.data_append, List.map_cons]
    show _ = joinLinesL (_ :: b.toList :: t.map String.toList) ++ _
    have hj : joinLinesL (("OK " ++ tag ++ " " ++
        toString (b :: t).length).toList :: b.toList :: t.map String.toList) =
        ("OK " ++ tag ++ " " ++ toString (b :: t).length).toList ++
          '\n' :: joinLinesL (b.toList :: t.map String.toList) := rfl
    rw [hj]
    simp [String.data_append, List.append_assoc]

theorem helpTopicBody_sound (cmd : String) (body : List String)
    (h : helpTopicBody cmd = some body) :
    body ≠ [] ∧ ∀ s ∈ body, '\n' ∉ s.toList := by
  unfold helpTopicBody at h
  repeat' split at h
  all_goals first
    | (injection h with h2; subst h2; exact ⟨by decide, by decide⟩)
    | simp at h

/-- Every `handle_help` outcome: a syntax error, an unknown topic, or a
count-framed response over a nonempty newline-free body. -/
theorem handle_help_shape (c : Client) (st : ServerState) (rest : String) :
    (handle_help c st rest).response = "ERR BAD_SYNTAX\n" ∨
    (handle_help c st rest).response = "ERR UNKNOWN_COMMAND\n" ∨
    ∃ body : List String, body ≠ [] ∧ (∀ s ∈ body, '\n' ∉ s.toList) ∧
      (handle_help c st rest).response = countFramed "HELP" body := by
  unfold handle_help
  dsimp only
  split
  · exact Or.inr (Or.inr ⟨helpGeneralBody, by decide, by decide, rfl⟩)
  · split
    · exact Or.inl rfl
    · split
      · exact Or.inr (Or.inl rfl)
      case _ body heq =>
        obtain ⟨hne, hnl⟩ := helpTopicBody_sound _ body heq
        exact Or.inr (Or.inr ⟨body, hne, hnl, rfl⟩)

theorem handle_list_ok (c : Client) (st : ServerState) (rest : String)
    (hauth : c.authenticated = true) (hrest : pyStrip rest = "") :
    handle_list c st rest =
      ⟨c, st, joinLines (("OK LIST " ++ toString st.posts.length)
        :: listBody st.posts) ++ "\n"⟩ := by
  have hra : require_auth c = none := by simp [require_auth, hauth]
  simp [handle_list, hra, hrest]

/-- C3: for every post store (any size, the empty one included, given
the store's structural invariants: duplicate-free keys, key = stored
id, newline-free rendered lines), a successful LIST response is the
newline-joined, newline-terminated frame whose header `OK LIST n`
declares `n` = number of posts = number of lines following the header,
and those lines render all posts (a permutation of the store) in
strictly ascending id order; likewise every successful HELP response is
a count-framed response whose declared count equals the number of lines
following its header. -/
theorem list_help_count_framing (c : Client) (st : ServerState) (rest : String)
    (hauth : c.authenticated = true) (hrest : pyStrip rest = "")
    (hnd : (st.posts.map Prod.fst).Nodup)
    (hid : ∀ e ∈ st.posts, (Prod.snd e).id = Prod.fst e)
    (hnl : ∀ e ∈ st.posts, '\n' ∉ (postLine (Prod.snd e)).toList) :
    (∃ ps : List Post,
      ps.Perm (st.posts.map Prod.snd) ∧
      (ps.map Post.id).Sorted (· < ·) ∧
      ps.length = st.posts.length ∧
      (handle_list c st rest).response =
        joinLines (("OK LIST " ++ toString st.posts.length) :: ps.map postLine)
          ++ "\n" ∧
      wireLines (handle_list c st rest).response =
        ("OK LIST " ++ toString st.posts.length).toList
          :: (ps.map postLine).map String.toList) ∧
    (∀ rest' : String,
      (handle_help c st rest').response = "ERR BAD_SYNTAX\n" ∨
      (handle_help c st rest').response = "ERR UNKNOWN_COMMAND\n" ∨
      ∃ body : List String,
        (handle_help c st rest').response = countFramed "HELP" body ∧
        wireLines (handle_help c st rest').response =
          ("OK HELP " ++ toString body.length).toList
            :: body.map String.toList) := by
  have hperm_ks : (sortedKeys st.posts).Perm (st.posts.map Prod.fst) :=
    List.perm_insertionSort _ _
  have hperm_ps : ((sortedKeys st.posts).filterMap
      fun k => alookup st.posts k).Perm (st.posts.map Prod.snd) := by
    have h1 := hperm_ks.filterMap (fun k => alookup st.posts k)
    rwa [filterMap_alookup_keys st.posts hnd] at h1
  have hkey : ∀ k ∈ sortedKeys st.posts,
      ∃ p, alookup st.posts k = some p ∧ p.id = k := by
    intro k hk
    have hmem : k ∈ st.posts.map Prod.fst := hperm_ks.mem_iff.mp hk
    cases halk : alookup st.posts k with
    | none => rw [alookup_eq_none_iff] at halk; exact absurd hmem halk
    | some p =>
      exact ⟨p, rfl, hid (k, p) (alookup_mem st.posts k p halk)⟩
  have hmap_id : (((sortedKeys st.posts).filterMap
      fun k => alookup st.posts k).map Post.id) = sortedKeys st.posts :=
    filterMap_alookup_map_id st.posts _ hkey
  have hnd_ks : (sortedKeys st.posts).Nodup := (hperm_ks.nodup_iff).mpr hnd
  have hsorted : ((((sortedKeys st.posts).filterMap
      fun k => alookup st.posts k).map Post.id)).Sorted (· < ·) := by
    rw [hmap_id]
    exact (List.sorted_insertionSort _ _).lt_of_le hnd_ks
  have hlen : ((sortedKeys st.posts).filterMap
      fun k => alookup st.posts k).length = st.posts.length := by
    have := hperm_ps.length_eq
    simpa using this
  have hbody : listBody st.posts = ((sortedKeys st.posts).filterMap
      fun k => alookup st.posts k).map postLine := by
    unfold listBody
    rw [List.map_filterMap]
  have hresp := handle_list_ok c st rest hauth hrest
  have hhead_nl : '\n' ∉ ("OK LIST " ++ toString st.posts.length).toList := by
    rw [toList_append]
    intro hmem
    rcases List.mem_append.mp hmem with h | h
    · revert h; decide
    · exact nat_toString_no_newline _ h
  have hbody_nl : ∀ s ∈ ((sortedKeys st.posts).filterMap
      fun k => alookup st.posts k).map postLine, '\n' ∉ s.toList := by
    intro s hs
    obtain ⟨p, hp, hrfl⟩ := List.mem_map.mp hs
    obtain ⟨e, he, hrfl2⟩ := List.mem_map.mp (hperm_ps.subset hp)
    subst hrfl
    rw [← hrfl2]
    exact hnl e he
  constructor
  · refine ⟨(sortedKeys st.posts).filterMap fun k => alookup st.posts k,
      hperm_ps, hsorted, hlen, ?_, ?_⟩
    · rw [hresp, hbody]
    · rw [hresp]
      dsimp only
      rw [hbody, wireLines_join _ (by simp) ?_]
      · rw [List.map_cons]
      · intro s hs
        rcases List.mem_cons.mp hs with hq | hq
        · exact hq ▸ hhead_nl
        · exact hbody_nl s hq
  · intro rest'
    rcases handle_help_shape c st rest' with h | h | ⟨body, hne, hbnl, heq⟩
    · exact Or.inl h
    · exact Or.inr (Or.inl h)
    · refine Or.inr (Or.inr ⟨body, heq, ?_⟩)
      rw [heq, countFramed_eq_join "HELP" body hne]
      have hOK : ("OK " ++ "HELP" ++ " " : String) = "OK HELP " := by decide
      rw [hOK, wireLines_join _ (by simp) ?_]
      · rw [List.map_cons]
      · intro s hs
        rcases List.mem_cons.mp hs with hq | hq
        · subst hq
          rw [toList_append]
          intro hmem
          rcases List.mem_append.mp hmem with h | h
          · revert h; decide
          · exact nat_toString_no_newline _ h
        · exact hbnl s hq

/-- C3 witness: a two-post store held in reverse insertion order is
listed sorted by id with a correct count, and `HELP LOGIN` frames its
topic body with a correct count. -/
theorem list_help_count_framing_witness :
    (⟨some "oliver", some "user", true⟩ : Client).authenticated = true ∧
    pyStrip "" = "" ∧
    (([(2, (⟨2, "sam", "t2", "world"⟩ : Post)),
       (1, (⟨1, "oliver", "t1", "hello"⟩ : Post))].map Prod.fst).Nodup) ∧
    (∃ ps : List Post,
      ps.Perm ((⟨USERS, [(2, ⟨2, "sam", "t2", "world"⟩),
          (1, ⟨1, "oliver", "t1", "hello"⟩)], 3⟩ : ServerState).posts.map
            Prod.snd) ∧
      (ps.map Post.id).Sorted (· < ·) ∧
      ps.length = (⟨USERS, [(2, ⟨2, "sam", "t2", "world"⟩),
          (1, ⟨1, "oliver", "t1", "hello"⟩)], 3⟩ : ServerState).posts.length ∧
      (handle_list ⟨some "oliver", some "user", true⟩
          ⟨USERS, [(2, ⟨2, "sam", "t2", "world"⟩),
            (1, ⟨1, "oliver", "t1", "hello"⟩)], 3⟩ "").response =
        joinLines (("OK LIST " ++ toString (⟨USERS,
            [(2, ⟨2, "sam", "t2", "world"⟩),
             (1, ⟨1, "oliver", "t1", "hello"⟩)], 3⟩ :
              ServerState).posts.length) :: ps.map postLine) ++ "\n" ∧
      wireLines (handle_list ⟨some "oliver", some "user", true⟩
          ⟨USERS, [(2, ⟨2, "sam", "t2", "world"⟩),
            (1, ⟨1, "oliver", "t1", "hello"⟩)], 3⟩ "").response =
        ("OK LIST " ++ toString (⟨USERS, [(2, ⟨2, "sam", "t2", "world"⟩),
            (1, ⟨1, "oliver", "t1", "hello"⟩)], 3⟩ :
              ServerState).posts.length).toList
          :: (ps.map postLine).map String.toList) ∧
    ((handle_help ⟨some "oliver", some "user", true⟩
        ⟨USERS, [(2, ⟨2, "sam", "t2", "world"⟩),
          (1, ⟨1, "oliver", "t1", "hello"⟩)], 3⟩ "LOGIN").response =
        "ERR BAD_SYNTAX\n" ∨
     (handle_help ⟨some "oliver", some "user", true⟩
        ⟨USERS, [(2, ⟨2, "sam", "t2", "world"⟩),
          (1, ⟨1, "oliver", "t1", "hello"⟩)], 3⟩ "LOGIN").response =
        "ERR UNKNOWN_COMMAND\n" ∨
     ∃ body : List String,
       (handle_help ⟨some "oliver", some "user", true⟩
          ⟨USERS, [(2, ⟨2, "sam", "t2", "world"⟩),
            (1, ⟨1, "oliver", "t1", "hello"⟩)], 3⟩ "LOGIN").response =
          countFramed "HELP" body ∧
       wireLines (handle_help ⟨some "oliver", some "user", true⟩
          ⟨USERS, [(2, ⟨2, "sam", "t2", "world"⟩),
            (1, ⟨1, "oliver", "t1", "hello"⟩)], 3⟩ "LOGIN").response =
          ("OK HELP " ++ toString body.length).toList
            :: body.map String.toList) := by
  have h := list_help_count_framing ⟨some "oliver", some "user", true⟩
    ⟨USERS, [(2, ⟨2, "sam", "t2", "world"⟩),
      (1, ⟨1, "oliver", "t1", "hello"⟩)], 3⟩ "" rfl (by decide) (by decide)
    (by decide) (by decide)
  exact ⟨rfl, by decide, by decide, h.1, h.2 "LOGIN"⟩

end BBS
